import Mathlib

/-!
# Verification of the wave feed-bot ingestion engine

Shallow embedding of the core ingestion engine of
`src/feed-bot/telegram-scraper.py` (class `OptimizedTelegramScraper`),
together with proofs of the spec's testable properties.

Modelling conventions:
* machine integers are `Nat`/`Int` (message ids are positive and never
  overflow in practice);
* the per-channel SQLite `messages` table is a `List MessageData` of rows in
  insertion order; the `UNIQUE` constraint on `message_id` is realised by the
  `INSERT OR IGNORE` semantics of `insertOrIgnore`;
* external I/O (the Telegram transport, the AI translation call, the file
  system) is passed in as explicit parameters describing the outcomes the
  external collaborator produced, exactly where the Python code awaits them;
* the persisted `state.json` cursor for one channel is the `cursor` field of
  `ScrapeState`; `save_state` writes it through, so the field tracks the
  on-disk value.
-/

namespace Wave

/-- The canonical normalized record, mirroring the `MessageData` dataclass
(telegram-scraper.py lines 82-97).  Nullable fields become `Option`. -/
structure MessageData where
  message_id : Nat
  date : String
  sender_id : Int
  first_name : Option String
  last_name : Option String
  username : Option String
  message : String
  media_type : Option String
  media_path : Option String
  reply_to : Option Nat
  post_author : Option String
  views : Option Nat
  forwards : Option Nat
  reactions : Option String
deriving DecidableEq

/-- Batch size `self.batch_size = 100` (line 107). -/
def batch_size : Nat := 100

/-- Checkpoint interval `self.state_save_interval = 50` (line 108). -/
def state_save_interval : Nat := 50

/-- Concurrency cap `self.max_concurrent_downloads = 5` (line 106). -/
def max_concurrent_downloads : Nat := 5

/-- Whether the messages table already holds a row with this `message_id`
(the `UNIQUE` constraint of the table created at lines 215-219). -/
def containsId (store : List MessageData) (mid : Nat) : Bool :=
  store.any (fun r => r.message_id == mid)

/-- `INSERT OR IGNORE` of one row: a row whose `message_id` is already present
is ignored, otherwise the row is appended (lines 291-298). -/
def insertOrIgnore (store : List MessageData) (msg : MessageData) : List MessageData :=
  if containsId store msg.message_id then store else store ++ [msg]

/-- `batch_insert_messages` restricted to its effect on the local store:
`executemany` of `INSERT OR IGNORE` over the batch (lines 263-299).  The
optional Supabase mirror write (line 267) does not touch the local store. -/
def batch_insert_messages (store : List MessageData) (msgs : List MessageData) :
    List MessageData :=
  msgs.foldl insertOrIgnore store

/-- Row lookup by message id. -/
def getById (store : List MessageData) (mid : Nat) : Option MessageData :=
  store.find? (fun r => r.message_id == mid)

/-- State of one incremental channel run of `scrape_channel` (lines 630-634):
the channel's local table (flushes write through to it), the in-memory
`message_batch` buffer, the persisted `state["channels"][channel]` cursor (the
loop writes it and calls `save_state` together, so the field tracks the
on-disk value), the `processed_messages` counter and `last_message_id`. -/
structure ScrapeState where
  store : List MessageData
  batch : List MessageData
  cursor : Nat
  processed : Nat
  last_message_id : Nat
deriving DecidableEq

/-- One iteration of the incremental pagination loop body (lines 636-721) for
a message that is processed without a per-record error: append the normalized
record to `message_batch`; flush the batch with `batch_insert_messages` when it
reaches `batch_size` (lines 703-705); record `last_message_id` and bump
`processed_messages` (lines 700-701); every `state_save_interval` processed
messages, persist the cursor as `last_message_id` (lines 707-709). -/
def scrapeStep (s : ScrapeState) (msg : MessageData) : ScrapeState :=
  let batch1 := s.batch ++ [msg]
  let flushed := batch1.length ≥ batch_size
  let store1 := if flushed then batch_insert_messages s.store batch1 else s.store
  let batch2 := if flushed then [] else batch1
  let last := msg.message_id
  let processed1 := s.processed + 1
  let cursor1 := if processed1 % state_save_interval == 0 then last else s.cursor
  ⟨store1, batch2, cursor1, processed1, last⟩

/-- Initial state of an incremental run started with `offset_id = cursor0`
against a channel whose local table holds `store0` (lines 630-634:
`message_batch = []`, `processed_messages = 0`, `last_message_id = offset_id`). -/
def initScrapeState (store0 : List MessageData) (cursor0 : Nat) : ScrapeState :=
  ⟨store0, [], cursor0, 0, cursor0⟩

/-- Processing a paginated sequence of messages through the incremental loop. -/
def scrapeRun (s : ScrapeState) (msgs : List MessageData) : ScrapeState :=
  msgs.foldl scrapeStep s

/-- Successful end of an incremental run (lines 726-727 and 775-776): flush the
remaining partial batch, then set the cursor to `last_message_id` and save. -/
def finishScrape (s : ScrapeState) : ScrapeState :=
  ⟨batch_insert_messages s.store s.batch, [], s.last_message_id, s.processed,
    s.last_message_id⟩

/-- An incremental `scrape_channel` run whose pagination fails with a transport
error after `k` successfully processed messages: the exception propagates to
the outer handler (lines 783-785), which prints and returns `[]` without any
further write, so the persisted state is the state reached by the run prefix
(the unflushed `message_batch` is lost). -/
def scrape_channel_incr_fail (store0 : List MessageData) (cursor0 : Nat)
    (msgs : List MessageData) (k : Nat) : List MessageData × ScrapeState :=
  ([], scrapeRun (initScrapeState store0 cursor0) (msgs.take k))

/-- A minimal normalized record with the given id and no media. -/
def mkMsg (i : Nat) : MessageData :=
  ⟨i, "", 0, none, none, none, "", none, none, none, none, none, none, none⟩

/-- Fifty consecutive messages with ids 1..50, one checkpoint interval's worth. -/
def msgs50 : List MessageData := (List.range 50).map (fun i => mkMsg (i + 1))

/-- `update_media_path` (lines 381-387) restricted to its local-store effect:
`UPDATE messages SET media_path = ? WHERE message_id = ?`.  The optional
Supabase mirror update (lines 389-413) does not touch the local store. -/
def update_media_path (store : List MessageData) (mid : Nat) (p : String) :
    List MessageData :=
  store.map (fun r => if r.message_id == mid then { r with media_path := some p } else r)

/-- On-disk contents of `state.json` observable during one `save_state`
(lines 201-206): `open(self.STATE_FILE, "w")` truncates the file to empty,
then `json.dump` writes the serialized state in chunks; element `k` is the
content after the first `k` chunks have landed (element 0 is the freshly
truncated file).  An execution interrupted mid-write leaves one of these
contents on disk in place of the previous file content. -/
def save_state_disk_states (chunks : List String) : List String :=
  (List.range (chunks.length + 1)).map (fun k => String.join (chunks.take k))

/-- Outcome of one transport fetch attempt inside `download_media`:
`message.download_media` returns a path (whose file may or may not exist on
disk afterwards), raises `FloodWaitError` carrying a server-supplied wait, or
raises some other exception. -/
inductive FetchOutcome where
  | ok (path : String) (onDisk : Bool)
  | floodWait (seconds : Nat)
  | err
deriving DecidableEq

/-- The retry loop of `download_media` (lines 359-377), `for attempt in
range(3)`, written over the list of remaining attempt indices: on a returned
path, succeed if the file exists and otherwise give up without retrying
(lines 361-365); on `FloodWaitError` sleep the server-supplied seconds and
retry while `attempt < 2` (lines 366-370); on any other exception sleep
`2 ** attempt` and retry while `attempt < 2` (lines 371-375).  Returns the
media reference, the sleeps performed in order, and the number of fetch
attempts made. -/
def download_loop (outcomes : Nat → FetchOutcome) :
    List Nat → Option String × List Nat × Nat
  | [] => (none, [], 0)
  | attempt :: rest =>
    match outcomes attempt with
    | .ok p onDisk => (if onDisk then some p else none, [], 1)
    | .floodWait s =>
      if attempt < 2 then
        match download_loop outcomes rest with
        | (r, sl, n) => (r, s :: sl, n + 1)
      else (none, [], 1)
    | .err =>
      if attempt < 2 then
        match download_loop outcomes rest with
        | (r, sl, n) => (r, 2 ^ attempt :: sl, n + 1)
      else (none, [], 1)

/-- `download_media` (lines 329-379): no media or media scraping disabled
(line 330) or webpage media (line 333) produce no reference and no fetch; an
existing file for the message id (dedup check, lines 355-357) is returned
without fetching; otherwise the 3-attempt retry loop runs. -/
def download_media (scrapeMedia hasMedia isWebpage : Bool) (existing : Option String)
    (outcomes : Nat → FetchOutcome) : Option String × List Nat × Nat :=
  if !hasMedia || !scrapeMedia then (none, [], 0)
  else if isWebpage then (none, [], 0)
  else
    match existing with
    | some p => (some p, [], 0)
    | none => download_loop outcomes [0, 1, 2]

/-- The wait the retry loop performs after failed attempt `i`: the
server-supplied seconds on a rate limit, `2 ** i` otherwise (a successful
attempt is never followed by a sleep). -/
def waitAfter (outcomes : Nat → FetchOutcome) (i : Nat) : Nat :=
  match outcomes i with
  | .floodWait s => s
  | .err => 2 ^ i
  | .ok _ _ => 0

/-- Whether a fetch attempt outcome is a failure (an exception was raised). -/
def isFail (o : FetchOutcome) : Bool :=
  match o with
  | .ok _ _ => false
  | .floodWait _ => true
  | .err => true

/-- Whether a record carries downloadable media: `message.media` set and not
a `MessageMediaWebPage` (the media-task filter at lines 534-538 / 693-698),
as recorded in the `media_type` column. -/
def hasDownloadableMedia (m : MessageData) : Bool :=
  m.media_type.isSome && !(m.media_type == some "MessageMediaWebPage")

/-- The media reconciliation loop shared by both branches of `scrape_channel`
(lines 558-609 and 729-773): each queued media task whose download succeeds
has its `media_path` written back with `update_media_path`; a failed download
changes nothing.  `dl mid = some p` means the (deduped, up-to-3-attempt)
download for message `mid` produced path `p`. -/
def download_write_back (dl : Nat → Option String) (s : List MessageData)
    (m : MessageData) : List MessageData :=
  if hasDownloadableMedia m then
    match dl m.message_id with
    | some p => update_media_path s m.message_id p
    | none => s
  else s

/-- The media download loop over all queued tasks, in order. -/
def apply_downloads (store : List MessageData) (tasks : List MessageData)
    (dl : Nat → Option String) : List MessageData :=
  tasks.foldl (download_write_back dl) store

/-- The force-rescrape branch of `scrape_channel` (lines 462-617), taken when
`force_rescrape` is set and a `message_limit` is configured (line 463): it
iterates only over the newest `message_limit` messages
(`iter_messages(entity, limit=message_limit)`, line 473, no offset), flushes
them through `batch_insert_messages` (in chunks of `batch_size` plus a final
flush, which composes to one batch insert of the whole window), runs the
media download loop, and returns at line 617 without ever assigning
`state["channels"][channel]`, so the stored cursor passes through unchanged.
`newest` stands for the normalized records of the fetched window. -/
def scrape_channel_force (store : List MessageData) (cursor : Nat)
    (newest : List MessageData) (dl : Nat → Option String) :
    List MessageData × Nat :=
  (apply_downloads (batch_insert_messages store newest) newest dl, cursor)

/-- A row the repair query of `rescrape_media` selects: `media_type IS NOT
NULL AND media_type != "MessageMediaWebPage" AND media_path IS NULL`
(lines 790-792). -/
def missingMedia (r : MessageData) : Bool :=
  r.media_type.isSome && !(r.media_type == some "MessageMediaWebPage") &&
    r.media_path.isNone

/-- The message ids the repair pass selects and resubmits as download tasks
(line 793). -/
def missing_media_ids (store : List MessageData) : List Nat :=
  (store.filter missingMedia).map (fun r => r.message_id)

/-- One step of the repair pass for a selected id: a successful download is
written back with `update_media_path` (lines 835-842); anything else changes
nothing. -/
def media_fix_step (dl : Nat → Option String) (s : List MessageData)
    (mid : Nat) : List MessageData :=
  match dl mid with
  | some p => update_media_path s mid p
  | none => s

/-- The per-id download/update loop of the repair pass over a task list. -/
def apply_media_fixes (store : List MessageData) (ids : List Nat)
    (dl : Nat → Option String) : List MessageData :=
  ids.foldl (media_fix_step dl) store

/-- `rescrape_media` (lines 787-864) restricted to its local-store effect:
for each id selected by the repair query, re-fetch the message and download
its media under the semaphore, writing a successful download back with
`update_media_path`.  `dl mid = some p` means the fetch and download for
`mid` succeeded with path `p`; `none` covers a deleted or media-less message
filtered out at lines 823-829 as well as a failed download. -/
def rescrape_media (store : List MessageData) (dl : Nat → Option String) :
    List MessageData :=
  apply_media_fixes store (missing_media_ids store) dl

/-- Attempt outcomes that fail twice and then succeed: used to exercise the
retry policy at a concrete input. -/
def failTwiceOutcomes : Nat → FetchOutcome := fun i =>
  if i < 2 then .err else .ok "media/3-photo.jpg" true

/-- A concrete record with photo media and no media reference. -/
def msgPhoto : MessageData :=
  { mkMsg 3 with media_type := some "MessageMediaPhoto" }

/-- `translate_text` (lines 152-183).  `aiConfigured` is `self.ai_client`
being initialized; `callResult` is the outcome of the awaited chat-completion
call together with reading its content (`Except.error` when it raises,
`Except.ok content` when it returns).  No client (line 154) or a short text
(line 157) return the text unchanged; any exception is caught and returns the
text (lines 181-183); a non-empty stripped translation is appended to the
original text after a marker (lines 176-180). -/
def translate_text (aiConfigured : Bool) (text : String)
    (callResult : Except Unit String) : String :=
  if !aiConfigured then text
  else if text.length < 2 then text
  else
    match callResult with
    | .error _ => text
    | .ok content =>
      let translation := content.trim
      if translation ≠ "" then text ++ "\n\n[Translation]:\n" ++ translation
      else text

/-- State of the bounded download pool: tasks not yet admitted by the
semaphore, tasks holding a permit (fetch in flight), tasks finished. -/
structure PoolState where
  waiting : Nat
  inflight : Nat
  done : Nat
deriving DecidableEq

/-- Interleaving semantics of the download pool of `scrape_channel`
(lines 735-746): `download_single_media` first awaits
`asyncio.Semaphore(self.max_concurrent_downloads)` (lines 735-739), so a
waiting task is admitted only while fewer than `max_concurrent_downloads`
permits are out, and the permit is released when its download returns. -/
inductive PoolStep : PoolState → PoolState → Prop where
  | acquire (s : PoolState) (hw : 0 < s.waiting)
      (hn : s.inflight < max_concurrent_downloads) :
      PoolStep s ⟨s.waiting - 1, s.inflight + 1, s.done⟩
  | release (s : PoolState) (hi : 0 < s.inflight) :
      PoolStep s ⟨s.waiting, s.inflight - 1, s.done + 1⟩

/-- States reachable by the download pool from a given start state. -/
inductive PoolReachable (init : PoolState) : PoolState → Prop where
  | refl : PoolReachable init init
  | step {s t : PoolState} : PoolReachable init s → PoolStep s t →
      PoolReachable init t

theorem containsId_insertOrIgnore_mono (store : List MessageData) (msg : MessageData)
    (mid : Nat) (h : containsId store mid = true) :
    containsId (insertOrIgnore store msg) mid = true := by
  unfold insertOrIgnore
  split
  · exact h
  · unfold containsId at h ⊢
    simp [List.any_append, h]

theorem containsId_insertOrIgnore_self (store : List MessageData) (msg : MessageData) :
    containsId (insertOrIgnore store msg) msg.message_id = true := by
  unfold insertOrIgnore
  split
  · assumption
  · unfold containsId
    simp [List.any_append]

theorem containsId_batch_insert_mono (msgs : List MessageData) (store : List MessageData)
    (mid : Nat) (h : containsId store mid = true) :
    containsId (batch_insert_messages store msgs) mid = true := by
  induction msgs generalizing store with
  | nil => exact h
  | cons m ms ih =>
    exact ih _ (containsId_insertOrIgnore_mono store m mid h)

theorem containsId_batch_insert_mem (msgs : List MessageData) (store : List MessageData)
    (m : MessageData) (hm : m ∈ msgs) :
    containsId (batch_insert_messages store msgs) m.message_id = true := by
  induction msgs generalizing store with
  | nil => cases hm
  | cons a ms ih =>
    cases hm with
    | head =>
      exact containsId_batch_insert_mono ms _ _ (containsId_insertOrIgnore_self store m)
    | tail _ hm =>
      exact ih (insertOrIgnore store a) hm

theorem batch_insert_of_all_present (msgs : List MessageData) (store : List MessageData)
    (h : ∀ m ∈ msgs, containsId store m.message_id = true) :
    batch_insert_messages store msgs = store := by
  induction msgs generalizing store with
  | nil => rfl
  | cons m ms ih =>
    have hm : containsId store m.message_id = true := h m (List.mem_cons_self _ _)
    have hstep : insertOrIgnore store m = store := by
      unfold insertOrIgnore
      simp [hm]
    show batch_insert_messages (insertOrIgnore store m) ms = store
    rw [hstep]
    exact ih store (fun x hx => h x (List.mem_cons_of_mem _ hx))

/-- C4: flushing the same batch twice is the same as flushing it once. -/
theorem batch_insert_idempotent (store : List MessageData) (msgs : List MessageData) :
    batch_insert_messages (batch_insert_messages store msgs) msgs =
      batch_insert_messages store msgs :=
  batch_insert_of_all_present msgs _
    (fun m hm => containsId_batch_insert_mem msgs store m hm)

theorem scrapeStep_preserves_present (s : ScrapeState) (msg m : MessageData)
    (h : containsId s.store m.message_id = true ∨ m ∈ s.batch) :
    containsId (scrapeStep s msg).store m.message_id = true ∨
      m ∈ (scrapeStep s msg).batch := by
  unfold scrapeStep
  cases h with
  | inl h =>
    left
    dsimp only
    split
    · exact containsId_batch_insert_mono _ _ _ h
    · exact h
  | inr h =>
    dsimp only
    split
    · left
      exact containsId_batch_insert_mem _ _ m (List.mem_append_left _ h)
    · right
      exact List.mem_append_left _ h

theorem scrapeStep_adds_msg (s : ScrapeState) (msg : MessageData) :
    containsId (scrapeStep s msg).store msg.message_id = true ∨
      msg ∈ (scrapeStep s msg).batch := by
  unfold scrapeStep
  dsimp only
  split
  · left
    exact containsId_batch_insert_mem _ _ msg
      (List.mem_append_right _ (List.mem_singleton.mpr rfl))
  · right
    exact List.mem_append_right _ (List.mem_singleton.mpr rfl)

theorem scrapeRun_preserves_present (msgs : List MessageData) (s : ScrapeState)
    (m : MessageData)
    (h : containsId s.store m.message_id = true ∨ m ∈ s.batch) :
    containsId (scrapeRun s msgs).store m.message_id = true ∨
      m ∈ (scrapeRun s msgs).batch := by
  induction msgs generalizing s with
  | nil => exact h
  | cons a ms ih => exact ih (scrapeStep s a) (scrapeStep_preserves_present s a m h)

theorem scrapeRun_present (msgs : List MessageData) (s : ScrapeState)
    (m : MessageData) (hm : m ∈ msgs) :
    containsId (scrapeRun s msgs).store m.message_id = true ∨
      m ∈ (scrapeRun s msgs).batch := by
  induction msgs generalizing s with
  | nil => cases hm
  | cons a ms ih =>
    cases hm with
    | head => exact scrapeRun_preserves_present ms _ m (scrapeStep_adds_msg s m)
    | tail _ hm => exact ih (scrapeStep s a) hm

theorem scrapeStep_batch_lt (s : ScrapeState) (msg : MessageData) :
    (scrapeStep s msg).batch.length < batch_size := by
  unfold scrapeStep
  dsimp only
  split
  · simp [batch_size]
  · next hflush =>
    exact Nat.lt_of_not_le hflush

theorem scrapeRun_batch_lt (msgs : List MessageData) (s : ScrapeState)
    (h : s.batch.length < batch_size) :
    (scrapeRun s msgs).batch.length < batch_size := by
  induction msgs generalizing s with
  | nil => exact h
  | cons a ms ih => exact ih (scrapeStep s a) (scrapeStep_batch_lt s a)

theorem scrapeRun_cursor_ge (msgs : List MessageData) (s : ScrapeState) (c : Nat)
    (hc : c ≤ s.cursor) (hm : ∀ m ∈ msgs, c ≤ m.message_id) :
    c ≤ (scrapeRun s msgs).cursor := by
  induction msgs generalizing s with
  | nil => exact hc
  | cons a ms ih =>
    refine ih (scrapeStep s a) ?_ (fun m hmem => hm m (List.mem_cons_of_mem _ hmem))
    unfold scrapeStep
    dsimp only
    split
    · exact hm a (List.mem_cons_self _ _)
    · exact hc

theorem scrapeRun_cursor_of_short (msgs : List MessageData) (s : ScrapeState)
    (h : s.processed + msgs.length < state_save_interval) :
    (scrapeRun s msgs).cursor = s.cursor ∧
      (scrapeRun s msgs).processed = s.processed + msgs.length := by
  induction msgs generalizing s with
  | nil => exact ⟨rfl, rfl⟩
  | cons a ms ih =>
    simp only [List.length_cons] at h
    have hlt : s.processed + 1 < state_save_interval := by omega
    have hcur : (scrapeStep s a).cursor = s.cursor := by
      unfold scrapeStep
      dsimp only
      have hne : ((s.processed + 1) % state_save_interval == 0) = false := by
        simp [Nat.mod_eq_of_lt hlt]
      simp [hne]
    have hproc : (scrapeStep s a).processed = s.processed + 1 := rfl
    have hrest : (scrapeStep s a).processed + ms.length < state_save_interval := by
      rw [hproc]
      omega
    have hrun := ih (scrapeStep s a) hrest
    have hcons : scrapeRun s (a :: ms) = scrapeRun (scrapeStep s a) ms := rfl
    rw [hcons]
    refine ⟨?_, ?_⟩
    · rw [hrun.1, hcur]
    · rw [hrun.2, hproc]
      simp only [List.length_cons]
      omega

set_option maxRecDepth 40000 in
/-- C1 counterexample: the checkpoint interval (50) is smaller than the batch
size (100), so a run over 50 messages checkpoints the cursor at id 50 while
the whole batch is still unflushed — the saved cursor is mutated with no batch
flush having happened, and message id 50 (which is at or below the saved
cursor) is not persisted; a crash here loses all 50 records below the cursor
instead of merely re-processing up to 49. -/
theorem checkpoint_leads_flush_cex :
    (scrapeRun (initScrapeState [] 0) msgs50).cursor = 50 ∧
      containsId (scrapeRun (initScrapeState [] 0) msgs50).store 50 = false ∧
      (scrapeRun (initScrapeState [] 0) msgs50).store = [] :=
  ⟨rfl, rfl, rfl⟩

/-- C1 (amended): the stored cursor is mutated every 50 processed records
regardless of whether the current batch has been flushed; what holds at every
point of an incremental run is that every processed message at or below the
saved cursor is either persisted to the local store or still sitting in the
in-memory batch buffer, and that buffer holds fewer than batch_size = 100
records — so a crash can lose up to 99 buffered records at or below the
cursor, in addition to re-processing flushed-but-uncheckpointed ones. -/
theorem checkpoint_crash_window (store0 : List MessageData) (cursor0 : Nat)
    (msgs : List MessageData) :
    (∀ m ∈ msgs,
        m.message_id ≤ (scrapeRun (initScrapeState store0 cursor0) msgs).cursor →
          containsId (scrapeRun (initScrapeState store0 cursor0) msgs).store
              m.message_id = true ∨
            m ∈ (scrapeRun (initScrapeState store0 cursor0) msgs).batch) ∧
      (scrapeRun (initScrapeState store0 cursor0) msgs).batch.length < batch_size := by
  constructor
  · intro m hm _
    exact scrapeRun_present msgs _ m hm
  · refine scrapeRun_batch_lt msgs (initScrapeState store0 cursor0) ?_
    simp [initScrapeState, batch_size]

/-- Witness for `checkpoint_crash_window` at a concrete run. -/
theorem checkpoint_crash_window_witness :
    containsId (scrapeRun (initScrapeState [] 0) msgs50).store 1 = true ∨
      mkMsg 1 ∈ (scrapeRun (initScrapeState [] 0) msgs50).batch :=
  (checkpoint_crash_window [] 0 msgs50).1 (mkMsg 1) (by decide) (by decide)

/-- C2 counterexample: `save_state` truncates `state.json` and rewrites it in
place, so an execution interrupted between two serializer writes leaves a
partially written file — here a save of the content chunks "ab", "cd" over a
file that previously held "xy" can be observed as "ab", which is neither the
previous content nor the fully landed new content. -/
theorem save_state_partial_write_cex :
    "ab" ∈ save_state_disk_states ["ab", "cd"] ∧ "ab" ≠ "xy" ∧
      "ab" ≠ String.join ["ab", "cd"] := by
  refine ⟨?_, ?_, ?_⟩ <;> decide

theorem join_append_chunks (l1 l2 : List String) :
    String.join (l1 ++ l2) = String.join l1 ++ String.join l2 := by
  apply String.ext
  simp

/-- C2 (amended): `save_state` is not atomic; it opens the state file with
truncation and writes the new serialization in place, so an interrupted save
leaves some prefix of the new content (possibly empty, the old content being
destroyed first) rather than either the old or the complete new content. -/
theorem save_state_inplace_prefix (chunks : List String) (st : String)
    (hst : st ∈ save_state_disk_states chunks) :
    ∃ rest, String.join chunks = st ++ rest := by
  unfold save_state_disk_states at hst
  rw [List.mem_map] at hst
  obtain ⟨k, _, rfl⟩ := hst
  exact ⟨String.join (chunks.drop k), by
    rw [← join_append_chunks, List.take_append_drop]⟩

/-- Witness for `save_state_inplace_prefix` at a concrete interrupted save. -/
theorem save_state_inplace_prefix_witness :
    ∃ rest, String.join ["ab", "cd"] = "ab" ++ rest :=
  save_state_inplace_prefix ["ab", "cd"] "ab" (by decide)

/-- C3 counterexample: a pagination transport error does not always leave the
cursor at its pre-run value — a run started at cursor 0 that processes 50
messages before pagination fails has already checkpointed the cursor to 50
(the mid-run checkpoint at `state_save_interval` fired before the failure). -/
theorem pagination_failure_cursor_cex :
    (scrape_channel_incr_fail [] 0 msgs50 50).2.cursor = 50 ∧ (50 : Nat) ≠ 0 :=
  ⟨rfl, by decide⟩

/-- C3 (amended): a transport error on pagination aborts the channel run and
returns the empty list; the stored cursor is the value saved by the most
recent 50-record checkpoint of this run — equal to the pre-run cursor exactly
when fewer than 50 records were processed before the failure — and it never
regresses below the pre-run cursor (incremental pagination only yields ids at
or above it). -/
theorem pagination_failure_outcome (store0 : List MessageData) (cursor0 : Nat)
    (msgs : List MessageData) (k : Nat)
    (hm : ∀ m ∈ msgs, cursor0 ≤ m.message_id) :
    (scrape_channel_incr_fail store0 cursor0 msgs k).1 = [] ∧
      cursor0 ≤ (scrape_channel_incr_fail store0 cursor0 msgs k).2.cursor ∧
      (k < state_save_interval →
        (scrape_channel_incr_fail store0 cursor0 msgs k).2.cursor = cursor0) := by
  refine ⟨rfl, ?_, ?_⟩
  · exact scrapeRun_cursor_ge (msgs.take k) _ cursor0 (le_refl _)
      (fun m hmem => hm m (List.mem_of_mem_take hmem))
  · intro hk
    have hlen : (initScrapeState store0 cursor0).processed + (msgs.take k).length <
        state_save_interval := by
      have h1 : (msgs.take k).length ≤ k := List.length_take_le k msgs
      have h0 : (initScrapeState store0 cursor0).processed = 0 := rfl
      omega
    exact (scrapeRun_cursor_of_short (msgs.take k) (initScrapeState store0 cursor0)
      hlen).1

/-- Witness for `pagination_failure_outcome` at a concrete failed run. -/
theorem pagination_failure_outcome_witness :
    (scrape_channel_incr_fail [] 7 [mkMsg 9] 1).1 = [] ∧
      7 ≤ (scrape_channel_incr_fail [] 7 [mkMsg 9] 1).2.cursor ∧
      (1 < state_save_interval →
        (scrape_channel_incr_fail [] 7 [mkMsg 9] 1).2.cursor = 7) :=
  pagination_failure_outcome [] 7 [mkMsg 9] 1 (by decide)

theorem message_id_update_media (r : MessageData) (uid : Nat) (p : String) :
    ((if r.message_id == uid then { r with media_path := some p } else r) :
      MessageData).message_id = r.message_id := by
  split <;> rfl

theorem update_media_path_fun_id (uid : Nat) (p : String) (mid : Nat) :
    ((fun r : MessageData => r.message_id == mid) ∘ fun r : MessageData =>
      if r.message_id == uid then { r with media_path := some p } else r) =
      fun r : MessageData => r.message_id == mid := by
  funext r
  simp only [Function.comp_apply]
  rw [message_id_update_media]

theorem containsId_update_media_path (s : List MessageData) (uid : Nat)
    (p : String) (mid : Nat) :
    containsId (update_media_path s uid p) mid = containsId s mid := by
  unfold containsId update_media_path
  rw [List.any_map, update_media_path_fun_id]

theorem getById_update_media_path_ne (s : List MessageData) (uid : Nat)
    (p : String) (mid : Nat) (h : uid ≠ mid) :
    getById (update_media_path s uid p) mid = getById s mid := by
  unfold getById update_media_path
  rw [List.find?_map, update_media_path_fun_id]
  cases hfind : s.find? (fun r => r.message_id == mid) with
  | none => rfl
  | some r =>
    have hr := List.find?_some hfind
    have hmid : r.message_id = mid := by simpa using hr
    have hru : (r.message_id == uid) = false := by
      rw [hmid]
      simpa using fun hx => h hx.symm
    simp [hru]
    intro hx
    exact absurd hx (by simpa using hru)

theorem containsId_download_write_back (dl : Nat → Option String)
    (s : List MessageData) (m : MessageData) (mid : Nat) :
    containsId (download_write_back dl s m) mid = containsId s mid := by
  unfold download_write_back
  split
  · cases dl m.message_id with
    | some p => exact containsId_update_media_path s m.message_id p mid
    | none => rfl
  · rfl

theorem containsId_apply_downloads (tasks : List MessageData)
    (s : List MessageData) (dl : Nat → Option String) (mid : Nat) :
    containsId (apply_downloads s tasks dl) mid = containsId s mid := by
  induction tasks generalizing s with
  | nil => rfl
  | cons t ts ih =>
    exact (ih (download_write_back dl s t)).trans
      (containsId_download_write_back dl s t mid)

theorem getById_download_write_back_ne (dl : Nat → Option String)
    (s : List MessageData) (m : MessageData) (mid : Nat)
    (h : m.message_id ≠ mid) :
    getById (download_write_back dl s m) mid = getById s mid := by
  unfold download_write_back
  split
  · cases dl m.message_id with
    | some p => exact getById_update_media_path_ne s m.message_id p mid h
    | none => rfl
  · rfl

theorem getById_apply_downloads_ne (tasks : List MessageData)
    (s : List MessageData) (dl : Nat → Option String) (mid : Nat)
    (h : ∀ t ∈ tasks, t.message_id ≠ mid) :
    getById (apply_downloads s tasks dl) mid = getById s mid := by
  induction tasks generalizing s with
  | nil => rfl
  | cons t ts ih =>
    exact (ih (download_write_back dl s t)
        (fun x hx => h x (List.mem_cons_of_mem _ hx))).trans
      (getById_download_write_back_ne dl s t mid (h t (List.mem_cons_self _ _)))

theorem getById_insertOrIgnore_ne (s : List MessageData) (m : MessageData)
    (mid : Nat) (h : m.message_id ≠ mid) :
    getById (insertOrIgnore s m) mid = getById s mid := by
  unfold insertOrIgnore
  split
  · rfl
  · unfold getById
    rw [List.find?_append]
    have hm : ([m].find? (fun r => r.message_id == mid)) = none := by
      have hb : (m.message_id == mid) = false := by simpa using h
      simp [List.find?, hb]
    rw [hm]
    cases s.find? (fun r => r.message_id == mid) <;> rfl

theorem getById_batch_insert_ne (msgs : List MessageData)
    (s : List MessageData) (mid : Nat)
    (h : ∀ m ∈ msgs, m.message_id ≠ mid) :
    getById (batch_insert_messages s msgs) mid = getById s mid := by
  induction msgs generalizing s with
  | nil => rfl
  | cons a ms ih =>
    exact (ih (insertOrIgnore s a)
        (fun x hx => h x (List.mem_cons_of_mem _ hx))).trans
      (getById_insertOrIgnore_ne s a mid (h a (List.mem_cons_self _ _)))

/-- C6: a full-rescrape run persists every fetched record, alters no stored
record whose id is outside the fetched window, and passes the stored channel
cursor through unchanged (the force-rescrape branch returns before the cursor
assignment of the incremental path). -/
theorem force_rescrape_frame (store : List MessageData) (cursor : Nat)
    (newest : List MessageData) (dl : Nat → Option String) :
    (scrape_channel_force store cursor newest dl).2 = cursor ∧
      (∀ m ∈ newest,
        containsId (scrape_channel_force store cursor newest dl).1
          m.message_id = true) ∧
      ∀ mid, (∀ m ∈ newest, m.message_id ≠ mid) →
        getById (scrape_channel_force store cursor newest dl).1 mid =
          getById store mid := by
  refine ⟨rfl, ?_, ?_⟩
  · intro m hm
    have h1 := containsId_batch_insert_mem newest store m hm
    have h2 := containsId_apply_downloads newest
      (batch_insert_messages store newest) dl m.message_id
    exact h2.trans h1
  · intro mid hmid
    exact (getById_apply_downloads_ne newest (batch_insert_messages store newest)
        dl mid hmid).trans
      (getById_batch_insert_ne newest store mid hmid)

/-- Witness for `force_rescrape_frame`: a record outside the rescraped window
is untouched. -/
theorem force_rescrape_frame_witness :
    getById (scrape_channel_force [] 100 [mkMsg 96] (fun _ => none)).1 1 =
      getById [] 1 :=
  (force_rescrape_frame [] 100 [mkMsg 96] (fun _ => none)).2.2 1 (by decide)

/-- C5: for a download task not satisfied by the dedup check, the retry loop
makes at most 3 fetch attempts; the sleeps between attempts are exactly the
server-supplied wait after a rate-limit failure (taking priority over the
generic backoff) and `2 ** attempt` after any other failure; three failed
attempts produce a permanent failure with no media reference; two failures
followed by a successful third attempt return the downloaded reference. -/
theorem download_media_retry_policy (outcomes : Nat → FetchOutcome) :
    (download_media true true false none outcomes).2.2 ≤ 3 ∧
      (download_media true true false none outcomes).2.1 =
        (List.range ((download_media true true false none outcomes).2.2 - 1)).map
          (waitAfter outcomes) ∧
      (isFail (outcomes 0) = true → isFail (outcomes 1) = true →
        isFail (outcomes 2) = true →
        (download_media true true false none outcomes).1 = none ∧
          (download_media true true false none outcomes).2.2 = 3) ∧
      (∀ p, isFail (outcomes 0) = true → isFail (outcomes 1) = true →
        outcomes 2 = .ok p true →
        (download_media true true false none outcomes).1 = some p ∧
          (download_media true true false none outcomes).2.2 = 3) := by
  rcases h0 : outcomes 0 with ⟨p0, d0⟩ | ⟨s0⟩ | _ <;>
    rcases h1 : outcomes 1 with ⟨p1, d1⟩ | ⟨s1⟩ | _ <;>
      rcases h2 : outcomes 2 with ⟨p2, d2⟩ | ⟨s2⟩ | _ <;>
        simp [download_media, download_loop, waitAfter, isFail, h0, h1, h2,
          List.range_succ]

/-- Witness for `download_media_retry_policy`: two generic failures followed
by a successful third attempt return the reference with 3 attempts made. -/
theorem download_media_retry_policy_witness :
    (download_media true true false none failTwiceOutcomes).1 =
        some "media/3-photo.jpg" ∧
      (download_media true true false none failTwiceOutcomes).2.2 = 3 :=
  (download_media_retry_policy failTwiceOutcomes).2.2.2 "media/3-photo.jpg"
    (by decide) (by decide) (by decide)

/-- C8: `translate_text` is modelled as a total function of the translation
call's outcome (the `except` handler catches every exception), and it returns
the original text unchanged whenever no translation client is configured or
the underlying call fails. -/
theorem translate_text_failure_identity (text : String) (r : Except Unit String)
    (aiConfigured : Bool) (e : Unit) :
    translate_text false text r = text ∧
      translate_text aiConfigured text (Except.error e) = text := by
  constructor
  · rfl
  · unfold translate_text
    cases aiConfigured <;> simp

/-- C9: every state the download pool can reach from a batch of `T > 5`
queued tasks has at most `max_concurrent_downloads = 5` fetches in flight:
the counting-semaphore admission gate enforces the bound. -/
theorem download_pool_bound (T : Nat) (_hT : 5 < T) (s : PoolState)
    (hs : PoolReachable ⟨T, 0, 0⟩ s) :
    s.inflight ≤ max_concurrent_downloads := by
  induction hs with
  | refl => exact Nat.zero_le _
  | step hr hstep ih =>
    cases hstep with
    | acquire hw hn => exact hn
    | release hi => exact Nat.le_trans (Nat.sub_le _ _) ih

/-- Witness for `download_pool_bound`: the state after one admission from a
batch of 6 tasks. -/
theorem download_pool_bound_witness :
    (⟨5, 1, 0⟩ : PoolState).inflight ≤ max_concurrent_downloads :=
  download_pool_bound 6 (by decide) ⟨5, 1, 0⟩
    (PoolReachable.step PoolReachable.refl
      (PoolStep.acquire ⟨6, 0, 0⟩ (by decide) (by decide)))

theorem update_media_path_mem (s : List MessageData) (uid : Nat) (p : String)
    (r : MessageData) (hr : r ∈ update_media_path s uid p) :
    ∃ r0 ∈ s, r.message_id = r0.message_id ∧ r.media_type = r0.media_type ∧
      (r.media_path = r0.media_path ∨ r.media_path.isSome = true) := by
  rw [update_media_path, List.mem_map] at hr
  obtain ⟨r0, hr0, rfl⟩ := hr
  refine ⟨r0, hr0, ?_⟩
  split
  · exact ⟨rfl, rfl, Or.inr rfl⟩
  · exact ⟨rfl, rfl, Or.inl rfl⟩

theorem media_fix_step_mem (dl : Nat → Option String) (s : List MessageData)
    (mid : Nat) (r : MessageData) (hr : r ∈ media_fix_step dl s mid) :
    ∃ r0 ∈ s, r.message_id = r0.message_id ∧ r.media_type = r0.media_type ∧
      (r.media_path = r0.media_path ∨ r.media_path.isSome = true) := by
  unfold media_fix_step at hr
  cases hdl : dl mid with
  | some p =>
    rw [hdl] at hr
    exact update_media_path_mem s mid p r hr
  | none =>
    rw [hdl] at hr
    exact ⟨r, hr, rfl, rfl, Or.inl rfl⟩

theorem apply_media_fixes_mem (ids : List Nat) (s : List MessageData)
    (dl : Nat → Option String) (r : MessageData)
    (hr : r ∈ apply_media_fixes s ids dl) :
    ∃ r0 ∈ s, r.message_id = r0.message_id ∧ r.media_type = r0.media_type ∧
      (r.media_path = r0.media_path ∨ r.media_path.isSome = true) := by
  induction ids generalizing s with
  | nil => exact ⟨r, hr, rfl, rfl, Or.inl rfl⟩
  | cons i is ih =>
    obtain ⟨r1, hr1, hid, hty, hpath⟩ := ih (media_fix_step dl s i) hr
    obtain ⟨r0, hr0, hid0, hty0, hpath0⟩ := media_fix_step_mem dl s i r1 hr1
    refine ⟨r0, hr0, hid.trans hid0, hty.trans hty0, ?_⟩
    rcases hpath with h1 | h1
    · rcases hpath0 with h2 | h2
      · exact Or.inl (h1.trans h2)
      · refine Or.inr ?_
        rw [h1]
        exact h2
    · exact Or.inr h1

theorem update_media_path_sets (s : List MessageData) (uid : Nat) (p : String)
    (r : MessageData) (hr : r ∈ update_media_path s uid p)
    (hid : r.message_id = uid) : r.media_path.isSome = true := by
  rw [update_media_path, List.mem_map] at hr
  obtain ⟨r0, _, rfl⟩ := hr
  rw [message_id_update_media] at hid
  have hb : (r0.message_id == uid) = true := by simpa using hid
  simp [hb]

theorem apply_media_fixes_not_missing (ids : List Nat) (s : List MessageData)
    (dl : Nat → Option String) (hdl : ∀ mid ∈ ids, (dl mid).isSome = true)
    (r : MessageData) (hr : r ∈ apply_media_fixes s ids dl)
    (hmiss : missingMedia r = true) : r.message_id ∉ ids := by
  induction ids generalizing s with
  | nil => simp
  | cons i is ih =>
    have hdli : (dl i).isSome = true := hdl i (List.mem_cons_self _ _)
    obtain ⟨p, hp⟩ := Option.isSome_iff_exists.mp hdli
    have hstep : media_fix_step dl s i = update_media_path s i p := by
      unfold media_fix_step
      rw [hp]
    have hr' : r ∈ apply_media_fixes (update_media_path s i p) is dl := by
      have hcons : apply_media_fixes s (i :: is) dl =
          apply_media_fixes (media_fix_step dl s i) is dl := rfl
      rw [hcons, hstep] at hr
      exact hr
    have hrest : r.message_id ∉ is :=
      ih (update_media_path s i p)
        (fun x hx => hdl x (List.mem_cons_of_mem _ hx)) hr'
    intro hmem
    rcases List.mem_cons.mp hmem with heq | hmemrest
    · obtain ⟨r0, hr0, hid, _, hpath⟩ :=
        apply_media_fixes_mem is (update_media_path s i p) dl r hr'
      have h0 : r0.message_id = i := by
        rw [← hid]
        exact heq
      have hsome0 : r0.media_path.isSome = true :=
        update_media_path_sets s i p r0 hr0 h0
      have hsome : r.media_path.isSome = true := by
        rcases hpath with h1 | h1
        · rw [h1]
          exact hsome0
        · exact h1
      have hnone : r.media_path.isNone = true := by
        have htmp := hmiss
        unfold missingMedia at htmp
        rw [Bool.and_eq_true] at htmp
        exact htmp.2
      cases hmp : r.media_path with
      | some q =>
        rw [hmp] at hnone
        cases hnone
      | none =>
        rw [hmp] at hsome
        cases hsome
    · exact hrest hmemrest

/-- C7: for a channel whose store holds exactly D records with a media
classification other than webpage but no media reference, the repair pass
resubmits exactly D download tasks (one per selected record), and when every
fetch succeeds the store afterwards contains no record with a media
classification (other than webpage) and a missing media reference. -/
theorem rescrape_media_completeness (store : List MessageData)
    (dl : Nat → Option String)
    (hdl : ∀ mid ∈ missing_media_ids store, (dl mid).isSome = true) :
    (missing_media_ids store).length = (store.filter missingMedia).length ∧
      (rescrape_media store dl).filter missingMedia = [] := by
  constructor
  · unfold missing_media_ids
    exact List.length_map _ _
  · rw [List.filter_eq_nil_iff]
    intro r hr hmiss
    have hmiss' : missingMedia r = true := hmiss
    have hnot := apply_media_fixes_not_missing (missing_media_ids store) store dl
      hdl r hr hmiss'
    obtain ⟨r0, hr0, hid, hty, hpath⟩ :=
      apply_media_fixes_mem (missing_media_ids store) store dl r hr
    have hparts : (r.media_type.isSome &&
        !(r.media_type == some "MessageMediaWebPage")) = true ∧
        r.media_path.isNone = true := by
      have htmp := hmiss'
      unfold missingMedia at htmp
      rw [Bool.and_eq_true] at htmp
      exact htmp
    have hnone : r.media_path.isNone = true := hparts.2
    have hpath0 : r0.media_path.isNone = true := by
      rcases hpath with h1 | h1
      · rw [← h1]
        exact hnone
      · cases hmp : r.media_path with
        | some q =>
          rw [hmp] at hnone
          cases hnone
        | none =>
          rw [hmp] at h1
          cases h1
    have hr0miss : missingMedia r0 = true := by
      unfold missingMedia
      rw [← hty, Bool.and_eq_true]
      exact ⟨hparts.1, hpath0⟩
    have hmem : r.message_id ∈ missing_media_ids store := by
      unfold missing_media_ids
      rw [hid]
      exact List.mem_map_of_mem _ (List.mem_filter.mpr ⟨hr0, hr0miss⟩)
    exact hnot hmem

/-- Witness for `rescrape_media_completeness`: one photo record with no media
reference is repaired by one successful download. -/
theorem rescrape_media_completeness_witness :
    (missing_media_ids [msgPhoto]).length =
        ([msgPhoto].filter missingMedia).length ∧
      (rescrape_media [msgPhoto]
        (fun _ => some "media/3-photo.jpg")).filter missingMedia = [] :=
  rescrape_media_completeness [msgPhoto] (fun _ => some "media/3-photo.jpg")
    (by decide)

/-- C10: the translation step never replaces or rewrites the original body:
the result of `translate_text` always has the original text as a prefix; when
a client is configured, the text has at least 2 characters and the call
returns a non-empty stripped translation, the result is exactly the original
text followed by the translation marker and the stripped translation; in
every other case (no client, short text, failed call, empty translation) the
result equals the original text. -/
theorem translate_text_prefix_property (aiConfigured : Bool) (text : String)
    (r : Except Unit String) :
    (∃ rest, translate_text aiConfigured text r = text ++ rest) ∧
      (∀ content, aiConfigured = true → 2 ≤ text.length →
        r = Except.ok content → content.trim ≠ "" →
        translate_text aiConfigured text r =
          text ++ "\n\n[Translation]:\n" ++ content.trim) ∧
      (aiConfigured = false → translate_text aiConfigured text r = text) ∧
      (text.length < 2 → translate_text aiConfigured text r = text) ∧
      (∀ e, r = Except.error e → translate_text aiConfigured text r = text) ∧
      (∀ content, r = Except.ok content → content.trim = "" →
        translate_text aiConfigured text r = text) := by
  refine ⟨?_, ?_, ?_, ?_, ?_, ?_⟩
  · cases aiConfigured with
    | false => exact ⟨"", by simp [translate_text]⟩
    | true =>
      by_cases hlen : text.length < 2
      · exact ⟨"", by simp [translate_text, hlen]⟩
      · cases r with
        | error e => exact ⟨"", by simp [translate_text, hlen]⟩
        | ok content =>
          by_cases htrim : content.trim = ""
          · exact ⟨"", by simp [translate_text, hlen, htrim]⟩
          · exact ⟨"\n\n[Translation]:\n" ++ content.trim,
              by simp [translate_text, hlen, htrim, String.append_assoc]⟩
  · intro content hc hlen hr htrim
    subst hc
    subst hr
    have h2 : ¬ (text.length < 2) := Nat.not_lt.mpr hlen
    simp [translate_text, h2, htrim]
  · intro hc
    subst hc
    rfl
  · intro hlen
    cases aiConfigured with
    | false => rfl
    | true => simp [translate_text, hlen]
  · intro e hr
    subst hr
    cases aiConfigured with
    | false => rfl
    | true => by_cases hlen : text.length < 2 <;> simp [translate_text, hlen]
  · intro content hr htrim
    subst hr
    cases aiConfigured with
    | false => rfl
    | true =>
      by_cases hlen : text.length < 2 <;> simp [translate_text, hlen, htrim]

/-- Witness for `translate_text_prefix_property` at concrete calls: with no
client configured the text passes through, and with a client a successful
call yields the original text as a prefix of the result. -/
theorem translate_text_prefix_property_witness :
    translate_text false "hi" (Except.ok "x") = "hi" ∧
      ∃ rest, translate_text true "hello" (Except.ok "bonjour") = "hello" ++ rest :=
  ⟨(translate_text_prefix_property false "hi" (Except.ok "x")).2.2.1 rfl,
    (translate_text_prefix_property true "hello" (Except.ok "bonjour")).1⟩

end Wave
